import Mathlib

/-!
Verification development for the cloud-assist human-in-the-loop command agent.

The Python source (src/agent) is shallowly embedded here:

* `src/agent/src/utils.py` — `clean_command_output` and `execute_shell_command`
  are modelled over `List Char` (Python strings) with the interaction with the
  operating system abstracted into an `ExecOutcome` describing what the
  `subprocess.run` call did (completed with stdout/stderr/exit code, timed
  out, or raised).
* `src/agent/src/graph.py` — the langgraph workflow is modelled as a step
  function on a `Session` (a graph phase plus the `AgentState` of
  `src/agent/src/state.py`).  The nondeterministic environment (LLM responses,
  command outcomes, human decisions) is the `Input` of each step.  Nodes that
  contain an `interrupt(...)` call are split into the part before the
  interrupt (which produces the request payload) and the part after it (which
  consumes the human response), exactly mirroring how langgraph re-enters the
  node on resume.  The `messages` field of `AgentState` is an append-only log
  that no node ever reads, so it is omitted from the embedding.
* `src/agent/src/prompts.py` — the interrupt payload builders
  `get_approval_request_data` / `get_retry_request_data` become the `Request`
  variants; their `options` dictionaries become `validOptions`.
* `src/agent/src/server.py` — the gate of `AgentServer.handle_approval_response`
  (lines 194–203) and the thread-id construction of
  `AgentServer.start_agent_session`; the `success` flag of the final
  `command_output` message becomes `session_success`.  The CLI front end's
  thread id (graph.py `main`, line 181) becomes `cli_thread_id`.
-/

namespace CloudAssist

/-- Whitespace characters removed by Python's `str.strip()` (ASCII range). -/
def isPySpace (c : Char) : Bool :=
  c == ' ' || c == '\t' || c == '\n' || c == '\r' || c == '\x0b' || c == '\x0c'

/-- Python `str.lstrip()`. -/
def lstrip (s : List Char) : List Char := s.dropWhile isPySpace

/-- Python `str.rstrip()`. -/
def rstrip (s : List Char) : List Char := (s.reverse.dropWhile isPySpace).reverse

/-- Python `str.strip()`: remove whitespace from both ends. -/
def strip (s : List Char) : List Char := lstrip (rstrip s)

/-- Python `str.startswith(pat)` on character lists (pattern first). -/
def beginsWith : List Char → List Char → Bool
  | [], _ => true
  | _ :: _, [] => false
  | p :: ps, c :: cs => p == c && beginsWith ps cs

/-- Python `str.endswith(pat)` on character lists (pattern first). -/
def finishesWith (pat s : List Char) : Bool := beginsWith pat.reverse s.reverse

/-- Python `str.split('\n')`: always returns at least one piece. -/
def splitOnNl : List Char → List (List Char)
  | [] => [[]]
  | c :: rest =>
      if c = '\n' then [] :: splitOnNl rest
      else
        match splitOnNl rest with
        | [] => [[c]]
        | h :: t => (c :: h) :: t

/-- The markdown fence marker checked by `clean_command_output`. -/
def fence : List Char := ['`', '`', '`']

/-- utils.py lines 5–12, `clean_command_output`:
if the command starts with a fence, replace it by the second line when there
is one (`lines[1] if len(lines) > 1 else command`); if the result ends with a
fence, drop the last three characters and strip; finally strip. -/
def clean_command_output (command : List Char) : List Char :=
  let command1 :=
    if beginsWith fence command then (splitOnNl command).getD 1 command else command
  let command2 :=
    if finishesWith fence command1 then strip (command1.take (command1.length - 3))
    else command1
  strip command2

/-- What the `subprocess.run` call inside `execute_shell_command` did:
completed before the timeout with captured stdout/stderr and an exit code,
raised `TimeoutExpired`, or raised some other exception with a message. -/
inductive ExecOutcome where
  | completed (stdout stderr : List Char) (exitCode : Int)
  | timedOut
  | raised (message : List Char)
deriving DecidableEq

/-- The dict returned by `execute_shell_command` (utils.py lines 15–50): it
always has exactly these three keys. -/
structure ExecResult where
  command_output : List Char
  command_error : List Char
  execution_approved : Bool
deriving DecidableEq

/-- The f-string `f"Command timed out after {timeout} seconds"`. -/
def timeoutMessage (timeoutSec : Nat) : List Char :=
  "Command timed out after ".data ++ (toString timeoutSec).data ++ " seconds".data

/-- The f-string `f"Error executing command: {str(e)}"`. -/
def execErrorMessage (m : List Char) : List Char :=
  "Error executing command: ".data ++ m

/-- utils.py lines 15–50, `execute_shell_command`: exit code 0 yields stdout
with empty error; a non-zero exit yields stdout and stderr; `TimeoutExpired`
and any other exception are converted into fixed-format error messages.  All
branches set `execution_approved` to `True` and none propagates an
exception. -/
def execute_shell_command (timeoutSec : Nat) (outcome : ExecOutcome) : ExecResult :=
  match outcome with
  | .completed stdout stderr exitCode =>
      if exitCode = 0 then ⟨stdout, [], true⟩ else ⟨stdout, stderr, true⟩
  | .timedOut => ⟨[], timeoutMessage timeoutSec, true⟩
  | .raised m => ⟨[], execErrorMessage m, true⟩

/-- state.py `AgentState` (the `messages` log is never read by any node and
is omitted). -/
structure AgentState where
  user_prompt : List Char
  generated_command : List Char
  command_output : List Char
  command_error : List Char
  execution_approved : Bool
  retry_count : Nat
deriving DecidableEq

/-- Where a session currently is in the graph of graph.py
`create_agent_graph`.  The two `awaiting` phases are the suspension points of
the two `interrupt(...)` calls; `done` is `__end__` reached through
`check_result_node`, `cancelled` is `__end__` reached through the cancel
branch of `human_approval_node`. -/
inductive Phase where
  | generating
  | awaitingApproval
  | executing
  | awaitingRetry
  | retryGenerating
  | done
  | cancelled
deriving DecidableEq

/-- A session: the graph position plus the langgraph channel values. -/
structure Session where
  phase : Phase
  state : AgentState
deriving DecidableEq

/-- The interrupt payloads of prompts.py: `get_approval_request_data` and
`get_retry_request_data` (the constant `question` strings are not modelled,
the data fields and the option sets are). -/
inductive Request where
  | approval (command user_prompt : List Char) (retry_count : Nat)
  | retryAsk (original_command error output : List Char) (retry_count : Nat)
deriving DecidableEq

/-- The keys of the `options` dict of each interrupt payload (prompts.py
lines 43–49 and 58–62). -/
def validOptions : Request → List (List Char)
  | .approval _ _ _ => ["approve".data, "reject".data, "cancel".data]
  | .retryAsk _ _ _ _ => ["retry".data, "stop".data]

/-- prompts.py `get_approval_request_data`. -/
def get_approval_request_data (command user_prompt : List Char) (retry_count : Nat) :
    Request :=
  .approval command user_prompt retry_count

/-- prompts.py `get_retry_request_data`. -/
def get_retry_request_data (original_command error output : List Char)
    (retry_count : Nat) : Request :=
  .retryAsk original_command error output retry_count

/-- The hard-coded retry bound of graph.py line 75 (`retry_count < 3`,
commented "Max 3 retries"). -/
def maxRetries : Nat := 3

/-- graph.py lines 27–41, `generate_command_node`: set `generated_command` to
the cleaned LLM response (the node also re-stores `retry_count` with its own
current value, a no-op here). -/
def generate_command_node (st : AgentState) (response_content : List Char) :
    AgentState :=
  { st with generated_command := clean_command_output response_content }

/-- graph.py lines 55–62, the part of `human_approval_node` after the
interrupt: `"approve"` goes to `execute_command` setting
`execution_approved := True`, `"reject"` goes back to `generate_command`
setting it to `False`, and every other response falls into the
`else:  # cancel` branch ending the session with no state update. -/
def human_approval_node (st : AgentState) (human_response : List Char) :
    Phase × AgentState :=
  if human_response = "approve".data then (.executing, { st with execution_approved := true })
  else if human_response = "reject".data then (.generating, { st with execution_approved := false })
  else (.cancelled, st)

/-- graph.py lines 64–67, `execute_command_node`: run the generated command
through `execute_shell_command` (default 30-second timeout) and merge the
returned dict into the state. -/
def execute_command_node (st : AgentState) (outcome : ExecOutcome) : AgentState :=
  let r := execute_shell_command 30 outcome
  { st with
    command_output := r.command_output
    command_error := r.command_error
    execution_approved := r.execution_approved }

/-- graph.py lines 69–84, the part of `check_result_node` before the
interrupt: `if command_error and retry_count < 3` the retry payload is built
and the node interrupts; otherwise it goes straight to `__end__` with no
interrupt. -/
def check_result_node (st : AgentState) : Option Request :=
  if st.command_error ≠ [] ∧ st.retry_count < maxRetries then
    some (get_retry_request_data st.generated_command st.command_error
      st.command_output st.retry_count)
  else none

/-- graph.py lines 86–95, the part of `check_result_node` after the
interrupt: `"retry"` goes to `retry_command` incrementing `retry_count`;
every other response goes to `__end__` with no update. -/
def check_result_resume (st : AgentState) (human_response : List Char) :
    Phase × AgentState :=
  if human_response = "retry".data then
    (.retryGenerating, { st with retry_count := st.retry_count + 1 })
  else (.done, st)

/-- graph.py lines 97–117, `retry_command_node`: set `generated_command` to
the cleaned alternative-command response. -/
def retry_command_node (st : AgentState) (response_content : List Char) :
    AgentState :=
  { st with generated_command := clean_command_output response_content }

/-- One environment input to a session step: an LLM response (for the two
generation nodes), the outcome of the shell execution, or a resumed human
decision string. -/
inductive Input where
  | genOutput (text : List Char)
  | execOutcome (outcome : ExecOutcome)
  | decision (d : List Char)
deriving DecidableEq

/-- One advance of the graph of graph.py `create_agent_graph`: entry point
`generate_command`; edges generate→approval, execute→check_result,
retry→approval; `human_approval` and `check_result` route via the `Command`
they return.  Langgraph runs nodes until an interrupt or `__end__`, so a step
ends either suspended (emitting the interrupt payload) or at an end phase.
Terminal phases (and inputs of the wrong kind for the current phase) admit no
step. -/
def step (s : Session) (i : Input) : Option (Session × Option Request) :=
  match s.phase, i with
  | .generating, .genOutput t =>
      let st := generate_command_node s.state t
      some (⟨.awaitingApproval, st⟩,
        some (get_approval_request_data st.generated_command st.user_prompt st.retry_count))
  | .awaitingApproval, .decision d =>
      let pst := human_approval_node s.state d
      some (⟨pst.1, pst.2⟩, none)
  | .executing, .execOutcome o =>
      let st := execute_command_node s.state o
      match check_result_node st with
      | some r => some (⟨.awaitingRetry, st⟩, some r)
      | none => some (⟨.done, st⟩, none)
  | .awaitingRetry, .decision d =>
      let pst := check_result_resume s.state d
      some (⟨pst.1, pst.2⟩, none)
  | .retryGenerating, .genOutput t =>
      let st := retry_command_node s.state t
      some (⟨.awaitingApproval, st⟩,
        some (get_approval_request_data st.generated_command st.user_prompt st.retry_count))
  | _, _ => none

/-- The `initial_state` dict built in graph.py `main` and in server.py
`start_agent_session`. -/
def initial_state (user_prompt : List Char) : AgentState :=
  { user_prompt := user_prompt
    generated_command := []
    command_output := []
    command_error := []
    execution_approved := false
    retry_count := 0 }

/-- A fresh session starts at the graph entry point `generate_command`. -/
def initSession (user_prompt : List Char) : Session :=
  ⟨.generating, initial_state user_prompt⟩

/-- The `success` flag of the final `command_output` message in server.py
(`run_agent_graph` lines 129–146 and `continue_after_response`): success
exactly when the final `command_error` is empty. -/
def session_success (st : AgentState) : Bool := st.command_error.isEmpty

/-- Sessions reachable from a fresh session for a given prompt. -/
inductive Reachable (prompt : List Char) : Session → Prop where
  | init : Reachable prompt (initSession prompt)
  | more {s s' : Session} {i : Input} {ev : Option Request} :
      Reachable prompt s → step s i = some (s', ev) → Reachable prompt s'

/-- Sessions reachable from a given session by zero or more steps. -/
inductive ReachFrom : Session → Session → Prop where
  | refl (s : Session) : ReachFrom s s
  | more {s t u : Session} {i : Input} {ev : Option Request} :
      ReachFrom s t → step t i = some (u, ev) → ReachFrom s u

/-- Run a session through a list of inputs, returning the final session and
the payload emitted by the last step (`none` on an empty input list). -/
def run : Session → List Input → Option (Session × Option Request)
  | s, [] => some (s, none)
  | s, i :: is =>
      match step s i with
      | none => none
      | some (s', ev) =>
          match is with
          | [] => some (s', ev)
          | _ :: _ => run s' is

/-- The `interrupt_type` bookkeeping values of server.py `handle_interrupt`. -/
inductive InterruptKind where
  | approvalKind
  | retryKind
deriving DecidableEq

/-- The per-client bookkeeping of server.py `active_sessions`. -/
structure SessionInfo where
  waiting_for_response : Bool
  interrupt_kind : Option InterruptKind
deriving DecidableEq

/-- What server.py `handle_approval_response` does before any graph call. -/
inductive ApprovalHandling where
  | errorNoSession
  | errorNotWaiting
  | resumeWith (d : List Char)
deriving DecidableEq

/-- server.py lines 194–203, the gate of `handle_approval_response`: with no
active session reply "No active session found"; when not waiting for an
approval reply "Not waiting for approval"; in both error cases the graph is
never resumed, so the session state is untouched.  Only when the session is
suspended at an approval interrupt is the graph resumed, with the boolean
mapped to `"approve"` / `"reject"`. -/
def handle_approval_response (info : Option SessionInfo) (approved : Bool) :
    ApprovalHandling :=
  match info with
  | none => .errorNoSession
  | some s =>
      if s.waiting_for_response = true ∧ s.interrupt_kind = some .approvalKind then
        .resumeWith (if approved then "approve".data else "reject".data)
      else .errorNotWaiting

/-- graph.py `main` line 181: the CLI thread id
`f"session_{hash(user_input)}"` — a function of the prompt's hash only. -/
def cli_thread_id (h : Int) : List Char :=
  "session_".data ++ (toString h).data

/-- The thread ids the CLI loop of graph.py `main` assigns to a sequence of
requests, given Python's (process-deterministic) `hash` function. -/
def cli_thread_ids (pyHash : List Char → Int) (prompts : List (List Char)) :
    List (List Char) :=
  prompts.map (fun p => cli_thread_id (pyHash p))

/-- server.py lines 100–101: the server thread id
`f"session_{client_id}_{uuid4()}"`. -/
def server_thread_id (client_id uuid : List Char) : List Char :=
  "session_".data ++ client_id ++ "_".data ++ uuid

/-- The `MemorySaver` checkpoint map keyed by thread id, modelled as an
association list where a save shadows earlier entries for the same key. -/
def store_save (store : List (List Char × AgentState)) (k : List Char)
    (v : AgentState) : List (List Char × AgentState) :=
  (k, v) :: store

/-- Lookup in the checkpoint map (most recent save for the key wins). -/
def store_load : List (List Char × AgentState) → List Char → Option AgentState
  | [], _ => none
  | (k', v) :: rest, k => if k' = k then some v else store_load rest k

/-- A failing execution outcome used by the concrete scenario traces: exit
code 1 with stderr `"boom"`. -/
def failOutcome : ExecOutcome := .completed [] ("boom".data) 1

/-- The all-approve, all-fail scenario of C3: three executions, every command
approved, every offered retry taken, every execution failing.  The final
input is the third consecutive execution failure. -/
def c3_inputs : List Input :=
  [.genOutput ("c1".data), .decision ("approve".data), .execOutcome failOutcome,
   .decision ("retry".data), .genOutput ("c2".data), .decision ("approve".data),
   .execOutcome failOutcome, .decision ("retry".data), .genOutput ("c3".data),
   .decision ("approve".data), .execOutcome failOutcome]

/-- A generator output consisting of a bare fence: it cleans to the empty
command, which the user can still approve. -/
def c6_inputs : List Input :=
  [.genOutput ("```".data), .decision ("approve".data)]

/-- A concrete session suspended at the approval interrupt. -/
def approvalSession : Session :=
  ⟨.awaitingApproval,
   { user_prompt := "list files".data
     generated_command := "ls -la".data
     command_output := []
     command_error := []
     execution_approved := false
     retry_count := 0 }⟩

/-!  Helper lemmas about the Python string operations. -/

lemma dropWhile_idem (p : Char → Bool) (l : List Char) :
    List.dropWhile p (List.dropWhile p l) = List.dropWhile p l := by
  induction l with
  | nil => rfl
  | cons a l ih =>
      by_cases h : p a
      · simp [List.dropWhile_cons, h, ih]
      · simp [List.dropWhile_cons, h]

lemma dropWhile_of_append_fixed (p : Char → Bool) (l t : List Char)
    (h : List.dropWhile p (l ++ t) = l ++ t) : List.dropWhile p l = l := by
  cases l with
  | nil => rfl
  | cons c l' =>
      by_cases hc : p c
      · exfalso
        simp only [List.cons_append, List.dropWhile_cons, hc, if_true] at h
        have hlen := congrArg List.length h
        have hle := (List.dropWhile_sublist (l := l' ++ t) p).length_le
        simp [List.length_append] at hlen hle
        omega
      · simp [List.dropWhile_cons, hc]

lemma rstrip_idem (s : List Char) : rstrip (rstrip s) = rstrip s := by
  simp [rstrip, List.reverse_reverse, dropWhile_idem]

lemma strip_strip (s : List Char) : strip (strip s) = strip s := by
  have hA : List.dropWhile isPySpace (rstrip s).reverse = (rstrip s).reverse := by
    simp [rstrip, List.reverse_reverse, dropWhile_idem]
  have h1 : rstrip (lstrip (rstrip s)) = lstrip (rstrip s) := by
    have hsplit :
        (rstrip s).reverse =
          (List.dropWhile isPySpace (rstrip s)).reverse ++
            (List.takeWhile isPySpace (rstrip s)).reverse := by
      rw [← List.reverse_append, List.takeWhile_append_dropWhile]
    have hfix :
        List.dropWhile isPySpace (List.dropWhile isPySpace (rstrip s)).reverse =
          (List.dropWhile isPySpace (rstrip s)).reverse := by
      apply dropWhile_of_append_fixed isPySpace _ (List.takeWhile isPySpace (rstrip s)).reverse
      rw [← hsplit]
      exact hA
    have hr :
        rstrip (lstrip (rstrip s)) =
          (List.dropWhile isPySpace
            (List.dropWhile isPySpace (rstrip s)).reverse).reverse := rfl
    rw [hr, hfix, List.reverse_reverse]
    rfl
  calc strip (strip s) = lstrip (rstrip (lstrip (rstrip s))) := rfl
    _ = lstrip (lstrip (rstrip s)) := by rw [h1]
    _ = lstrip (rstrip s) := dropWhile_idem _ _
    _ = strip s := rfl

lemma clean_stripped (s : List Char) :
    strip (clean_command_output s) = clean_command_output s := by
  simp only [clean_command_output]
  exact strip_strip _

lemma splitOnNl_no_nl (s : List Char) (h : '\n' ∉ s) : splitOnNl s = [s] := by
  induction s with
  | nil => rfl
  | cons c rest ih =>
      have hc : ¬ c = '\n' := by
        intro e
        exact h (e ▸ List.mem_cons_self c rest)
      have hr : '\n' ∉ rest := fun m => h (List.mem_cons_of_mem _ m)
      simp [splitOnNl, hc, ih hr]

lemma clean_fixed (t : List Char) (h1 : strip t = t)
    (h2 : finishesWith fence t = false)
    (h3 : beginsWith fence t = true → '\n' ∉ t) :
    clean_command_output t = t := by
  simp only [clean_command_output]
  by_cases hb : beginsWith fence t
  · rw [splitOnNl_no_nl t (h3 hb)]
    simp [hb, h2, h1, List.getD]
  · simp [hb, h2, h1]

/-!  Helper lemmas about the workflow step function. -/

lemma step_cancelled (st : AgentState) (i : Input) :
    step ⟨Phase.cancelled, st⟩ i = none := by
  cases i <;> rfl

lemma step_done (st : AgentState) (i : Input) :
    step ⟨Phase.done, st⟩ i = none := by
  cases i <;> rfl

lemma reachFrom_cancelled (st : AgentState) (t : Session)
    (h : ReachFrom ⟨Phase.cancelled, st⟩ t) : t = ⟨Phase.cancelled, st⟩ := by
  induction h with
  | refl => rfl
  | more h hstep ih =>
      rw [ih] at hstep
      rw [step_cancelled] at hstep
      exact absurd hstep (by simp)

lemma reachable_inv (prompt : List Char) (s : Session) (h : Reachable prompt s) :
    s.state.retry_count ≤ maxRetries ∧
      (s.phase = Phase.awaitingRetry → s.state.retry_count < maxRetries) := by
  induction h with
  | init => exact ⟨Nat.zero_le _, fun hph => nomatch hph⟩
  | more hre hstep ih =>
      rename_i s₁ s' i ev
      obtain ⟨ph, st⟩ := s₁
      obtain ⟨ih1, ih2⟩ := ih
      cases ph with
      | generating =>
          cases i with
          | genOutput t =>
              simp only [step, Option.some.injEq, Prod.mk.injEq] at hstep
              obtain ⟨hs, _⟩ := hstep
              subst hs
              exact ⟨ih1, fun hph => nomatch hph⟩
          | execOutcome o => simp [step] at hstep
          | decision d => simp [step] at hstep
      | awaitingApproval =>
          cases i with
          | genOutput t => simp [step] at hstep
          | execOutcome o => simp [step] at hstep
          | decision d =>
              by_cases h1 : d = "approve".data
              · simp only [step, human_approval_node, h1, if_true,
                  Option.some.injEq, Prod.mk.injEq] at hstep
                obtain ⟨hs, _⟩ := hstep
                subst hs
                exact ⟨ih1, fun hph => nomatch hph⟩
              · by_cases h2 : d = "reject".data
                · simp only [step, human_approval_node, h1, h2, if_true, if_false,
                    Option.some.injEq, Prod.mk.injEq] at hstep
                  obtain ⟨hs, _⟩ := hstep
                  subst hs
                  exact ⟨ih1, fun hph => nomatch hph⟩
                · simp only [step, human_approval_node, h1, h2, if_false,
                    Option.some.injEq, Prod.mk.injEq] at hstep
                  obtain ⟨hs, _⟩ := hstep
                  subst hs
                  exact ⟨ih1, fun hph => nomatch hph⟩
      | executing =>
          cases i with
          | genOutput t => simp [step] at hstep
          | decision d => simp [step] at hstep
          | execOutcome o =>
              simp only [step] at hstep
              cases hcr : check_result_node (execute_command_node st o) with
              | some r =>
                  rw [hcr] at hstep
                  simp only [Option.some.injEq, Prod.mk.injEq] at hstep
                  obtain ⟨hs, _⟩ := hstep
                  subst hs
                  refine ⟨ih1, fun _ => ?_⟩
                  simp only [check_result_node] at hcr
                  split at hcr
                  · rename_i hcond
                    exact hcond.2
                  · exact absurd hcr (by simp)
              | none =>
                  rw [hcr] at hstep
                  simp only [Option.some.injEq, Prod.mk.injEq] at hstep
                  obtain ⟨hs, _⟩ := hstep
                  subst hs
                  exact ⟨ih1, fun hph => nomatch hph⟩
      | awaitingRetry =>
          cases i with
          | genOutput t => simp [step] at hstep
          | execOutcome o => simp [step] at hstep
          | decision d =>
              by_cases h1 : d = "retry".data
              · simp only [step, check_result_resume, h1, if_true,
                  Option.some.injEq, Prod.mk.injEq] at hstep
                obtain ⟨hs, _⟩ := hstep
                subst hs
                have hlt := ih2 rfl
                refine ⟨?_, fun hph => nomatch hph⟩
                simpa using hlt
              · simp only [step, check_result_resume, h1, if_false,
                  Option.some.injEq, Prod.mk.injEq] at hstep
                obtain ⟨hs, _⟩ := hstep
                subst hs
                exact ⟨ih1, fun hph => nomatch hph⟩
      | retryGenerating =>
          cases i with
          | genOutput t =>
              simp only [step, Option.some.injEq, Prod.mk.injEq] at hstep
              obtain ⟨hs, _⟩ := hstep
              subst hs
              exact ⟨ih1, fun hph => nomatch hph⟩
          | execOutcome o => simp [step] at hstep
          | decision d => simp [step] at hstep
      | done => cases i <;> simp [step] at hstep
      | cancelled => cases i <;> simp [step] at hstep

/-!  Claim C4 — the response-cleaning function. -/

/-- Claim C4 counterexample: `clean_command_output` is not idempotent.  For
the input `"```x``` "` (a one-line fenced snippet with a trailing space) one
application yields `"```x```"` while a second application yields `"```x"`,
so clean(clean(s)) differs from clean(s). -/
theorem C4_counterexample :
    clean_command_output (clean_command_output ("```x``` ".data)) ≠
      clean_command_output ("```x``` ".data) := by
  decide

/-- Claim C4, amended: the response-cleaning function leaves text that
neither starts nor ends with a fence marker unchanged apart from trimming
(`clean(s) = strip(s)`), and it is idempotent whenever the cleaned text does
not end with a fence marker and does not both start with one and contain a
newline — but not in general. -/
theorem C4_amended :
    (∀ s : List Char, beginsWith fence s = false → finishesWith fence s = false →
      clean_command_output s = strip s) ∧
    (∀ s : List Char, finishesWith fence (clean_command_output s) = false →
      (beginsWith fence (clean_command_output s) = true →
        '\n' ∉ clean_command_output s) →
      clean_command_output (clean_command_output s) = clean_command_output s) := by
  constructor
  · intro s hb hf
    simp only [clean_command_output]
    simp [hb, hf]
  · intro s hf hb
    exact clean_fixed _ (clean_stripped s) hf hb

/-- Claim C4 witness: the amended theorem evaluated at concrete inputs — a
plain command is only trimmed, and cleaning a well-formed fenced block is
idempotent. -/
theorem C4_amended_witness :
    clean_command_output (" ls -la ".data) = strip (" ls -la ".data) ∧
    clean_command_output (clean_command_output ("```\nls -la\n```".data)) =
      clean_command_output ("```\nls -la\n```".data) :=
  ⟨C4_amended.1 (" ls -la ".data) (by decide) (by decide),
   C4_amended.2 ("```\nls -la\n```".data) (by decide) (by decide)⟩

/-!  Claim C2 — the retry bound. -/

/-- Claim C2: in every reachable session `retry_count` never exceeds the
configured maximum of 3, and once the maximum is reached a failing execution
transitions directly to the terminal DONE phase with no retry decision
request emitted and the last error preserved in `command_error`. -/
theorem C2_retry_cap (prompt : List Char) (s : Session)
    (h : Reachable prompt s) :
    s.state.retry_count ≤ maxRetries ∧
      (∀ o : ExecOutcome, s.phase = Phase.executing →
        maxRetries ≤ s.state.retry_count →
        (execute_shell_command 30 o).command_error ≠ [] →
        step s (Input.execOutcome o) =
          some (⟨Phase.done, execute_command_node s.state o⟩, none) ∧
        (execute_command_node s.state o).command_error =
          (execute_shell_command 30 o).command_error) := by
  refine ⟨(reachable_inv prompt s h).1, ?_⟩
  intro o hph hmax herr
  obtain ⟨ph, st⟩ := s
  simp only at hph
  subst hph
  have hmax' : maxRetries ≤ st.retry_count := hmax
  have hcr : check_result_node (execute_command_node st o) = none := by
    simp only [check_result_node]
    rw [if_neg]
    intro hcond
    have hlt : st.retry_count < maxRetries := hcond.2
    omega
  refine ⟨?_, rfl⟩
  simp only [step]
  rw [hcr]

/-- Claim C2 witness: the theorem applied to the fresh session, which is
reachable by construction. -/
theorem C2_retry_cap_witness :
    (initSession ("list files".data)).state.retry_count ≤ maxRetries ∧
      (∀ o : ExecOutcome, (initSession ("list files".data)).phase = Phase.executing →
        maxRetries ≤ (initSession ("list files".data)).state.retry_count →
        (execute_shell_command 30 o).command_error ≠ [] →
        step (initSession ("list files".data)) (Input.execOutcome o) =
          some (⟨Phase.done,
            execute_command_node (initSession ("list files".data)).state o⟩, none) ∧
        (execute_command_node (initSession ("list files".data)).state o).command_error =
          (execute_shell_command 30 o).command_error) :=
  C2_retry_cap ("list files".data) _ Reachable.init

/-!  Claim C3 — the three-failure scenario. -/

/-- Claim C3 counterexample: with every command approved and every offered
retry taken, after the third consecutive execution failure the session is
suspended at another retry offer (a decision request is emitted), not at
DONE: the code allows three retries, i.e. four executions. -/
theorem C3_counterexample :
    (run (initSession ("deploy".data)) c3_inputs).map
        (fun r => (r.1.phase, r.2.isSome)) =
      some (Phase.awaitingRetry, true) := by
  decide

/-- Claim C3, amended: in the all-approve, all-fail scenario it is the
fourth consecutive execution failure — the one occurring once `retry_count`
has reached `maxRetries = 3` after three approved retries — that transitions
directly to DONE with `success = false` and no further decision request. -/
theorem C3_amended (s : Session) (o : ExecOutcome)
    (hph : s.phase = Phase.executing)
    (hmax : s.state.retry_count = maxRetries)
    (herr : (execute_shell_command 30 o).command_error ≠ []) :
    step s (Input.execOutcome o) =
      some (⟨Phase.done, execute_command_node s.state o⟩, none) ∧
    session_success (execute_command_node s.state o) = false := by
  obtain ⟨ph, st⟩ := s
  simp only at hph
  subst hph
  have hmax' : st.retry_count = maxRetries := hmax
  have herr' : (execute_command_node st o).command_error ≠ [] := herr
  have hcr : check_result_node (execute_command_node st o) = none := by
    simp only [check_result_node]
    rw [if_neg]
    intro hcond
    have hlt : st.retry_count < maxRetries := hcond.2
    omega
  refine ⟨?_, ?_⟩
  · simp only [step]
    rw [hcr]
  · simp only [session_success]
    cases hE : (execute_command_node st o).command_error with
    | nil => exact absurd hE herr'
    | cons a l => simp [hE]

/-- Claim C3 witness: the amended theorem at a concrete session that has
exhausted its three retries and fails a fourth time. -/
theorem C3_amended_witness :
    step (⟨Phase.executing,
        ⟨"deploy".data, "c4".data, [], "boom".data, true, 3⟩⟩ : Session)
        (Input.execOutcome failOutcome) =
      some (⟨Phase.done,
        execute_command_node
          (⟨"deploy".data, "c4".data, [], "boom".data, true, 3⟩ : AgentState)
          failOutcome⟩, none) ∧
    session_success
      (execute_command_node
        (⟨"deploy".data, "c4".data, [], "boom".data, true, 3⟩ : AgentState)
        failOutcome) = false :=
  C3_amended _ failOutcome rfl rfl (by decide)

/-!  Claim C7 — timeouts. -/

lemma timeoutMessage_ne_nil (t : Nat) : timeoutMessage t ≠ [] := by
  simp only [timeoutMessage]
  exact List.append_ne_nil_of_left_ne_nil
    (List.append_ne_nil_of_left_ne_nil (by decide) _) _

/-- Claim C7: a timed-out execution yields an error result with the fixed
timeout message in `command_error` and empty `command_output`; this result is
an ordinary execution error — when retries remain, the session suspends at
the normal retry decision request (it is not terminated by the timeout
itself). -/
theorem C7_timeout_result (t : Nat) (sess : Session)
    (hph : sess.phase = Phase.executing)
    (hrc : sess.state.retry_count < maxRetries) :
    execute_shell_command t ExecOutcome.timedOut = ⟨[], timeoutMessage t, true⟩ ∧
    timeoutMessage t ≠ [] ∧
    step sess (Input.execOutcome ExecOutcome.timedOut) =
      some (⟨Phase.awaitingRetry, execute_command_node sess.state ExecOutcome.timedOut⟩,
        some (get_retry_request_data sess.state.generated_command (timeoutMessage 30)
          [] sess.state.retry_count)) := by
  obtain ⟨ph, st⟩ := sess
  simp only at hph
  subst hph
  have hrc' : st.retry_count < maxRetries := hrc
  refine ⟨rfl, timeoutMessage_ne_nil t, ?_⟩
  have hcr : check_result_node (execute_command_node st ExecOutcome.timedOut) =
      some (get_retry_request_data st.generated_command (timeoutMessage 30)
        [] st.retry_count) := by
    simp only [check_result_node]
    rw [if_pos]
    · rfl
    · exact ⟨timeoutMessage_ne_nil 30, hrc'⟩
  simp only [step]
  rw [hcr]

/-- Claim C7 witness: the theorem at a fresh executing session with a
long-running command. -/
theorem C7_timeout_result_witness :
    execute_shell_command 30 ExecOutcome.timedOut =
      ⟨[], timeoutMessage 30, true⟩ ∧
    timeoutMessage 30 ≠ [] ∧
    step (⟨Phase.executing,
        ⟨"wait".data, "sleep 99".data, [], [], true, 0⟩⟩ : Session)
        (Input.execOutcome ExecOutcome.timedOut) =
      some (⟨Phase.awaitingRetry,
        execute_command_node
          (⟨"wait".data, "sleep 99".data, [], [], true, 0⟩ : AgentState)
          ExecOutcome.timedOut⟩,
        some (get_retry_request_data ("sleep 99".data) (timeoutMessage 30) [] 0)) :=
  C7_timeout_result 30 _ rfl (by decide)

/-!  Claim C5 — exit-code mapping and the error-present policy. -/

/-- Claim C5: for an execution that completes before the timeout, exit code
0 yields a success result carrying stdout with an empty error field; a
non-zero exit yields a result carrying both stdout and stderr; and the
engine treats the execution as requiring repair — suspending at a retry
offer or finishing with `success = false` — exactly when the captured
`command_error` is non-empty (for a non-zero exit, exactly when stderr is
non-empty; exit code 0 always finishes with `success = true`). -/
theorem C5_exec_and_error_handling (out err : List Char) (code : Int) (t : Nat)
    (sess : Session) (hph : sess.phase = Phase.executing) :
    (code = 0 →
      execute_shell_command t (ExecOutcome.completed out err code) =
        ⟨out, [], true⟩) ∧
    (code ≠ 0 →
      execute_shell_command t (ExecOutcome.completed out err code) =
        ⟨out, err, true⟩) ∧
    (code = 0 →
      step sess (Input.execOutcome (ExecOutcome.completed out err code)) =
        some (⟨Phase.done,
          execute_command_node sess.state (ExecOutcome.completed out err code)⟩,
          none) ∧
      session_success
        (execute_command_node sess.state (ExecOutcome.completed out err code)) =
        true) ∧
    (code ≠ 0 →
      (((∃ s' r, step sess (Input.execOutcome (ExecOutcome.completed out err code)) =
            some (s', some r) ∧ s'.phase = Phase.awaitingRetry) ∨
        (step sess (Input.execOutcome (ExecOutcome.completed out err code)) =
            some (⟨Phase.done,
              execute_command_node sess.state
                (ExecOutcome.completed out err code)⟩, none) ∧
          session_success
            (execute_command_node sess.state
              (ExecOutcome.completed out err code)) = false)) ↔ err ≠ [])) := by
  obtain ⟨ph, st⟩ := sess
  simp only at hph
  subst hph
  refine ⟨fun h0 => by simp [execute_shell_command, h0],
    fun hne => by simp [execute_shell_command, hne], ?_, ?_⟩
  · intro h0
    have hst : execute_command_node st (ExecOutcome.completed out err code) =
        { st with
            command_output := out
            command_error := []
            execution_approved := true } := by
      simp [execute_command_node, execute_shell_command, h0]
    have hcr :
        check_result_node (execute_command_node st (ExecOutcome.completed out err code)) =
          none := by
      rw [hst]
      simp [check_result_node]
    refine ⟨?_, ?_⟩
    · simp only [step]
      rw [hcr]
    · rw [hst]
      simp [session_success]
  · intro hne
    have hst : execute_command_node st (ExecOutcome.completed out err code) =
        { st with
            command_output := out
            command_error := err
            execution_approved := true } := by
      simp [execute_command_node, execute_shell_command, hne]
    constructor
    · rintro (⟨s1, r1, hstep, _⟩ | ⟨_, hfail⟩)
      · intro hnil
        subst hnil
        have hcr :
            check_result_node
              (execute_command_node st (ExecOutcome.completed out [] code)) = none := by
          rw [hst]
          simp [check_result_node]
        simp only [step] at hstep
        rw [hcr] at hstep
        simp at hstep
      · intro hnil
        rw [hst] at hfail
        rw [hnil] at hfail
        simp [session_success] at hfail
    · intro herr
      by_cases hrc : st.retry_count < maxRetries
      · left
        have hcr :
            check_result_node
              (execute_command_node st (ExecOutcome.completed out err code)) =
            some (get_retry_request_data st.generated_command err out
              st.retry_count) := by
          rw [hst]
          simp only [check_result_node]
          rw [if_pos ⟨herr, hrc⟩]
        refine ⟨⟨Phase.awaitingRetry,
          execute_command_node st (ExecOutcome.completed out err code)⟩,
          get_retry_request_data st.generated_command err out st.retry_count,
          ?_, rfl⟩
        simp only [step]
        rw [hcr]
      · right
        have hcr :
            check_result_node
              (execute_command_node st (ExecOutcome.completed out err code)) =
            none := by
          rw [hst]
          simp only [check_result_node]
          rw [if_neg]
          intro hcond
          exact hrc hcond.2
        refine ⟨?_, ?_⟩
        · simp only [step]
          rw [hcr]
        · rw [hst]
          simp only [session_success]
          cases err with
          | nil => exact absurd rfl herr
          | cons a l => simp

/-- Claim C5 witness: the theorem at a concrete executing session and a
concrete failing completion (exit code 1 with stderr `"eek"`). -/
theorem C5_exec_and_error_handling_witness :
    ((1 : Int) = 0 →
      execute_shell_command 30 (ExecOutcome.completed ("ok".data) ("eek".data) 1) =
        ⟨"ok".data, [], true⟩) ∧
    ((1 : Int) ≠ 0 →
      execute_shell_command 30 (ExecOutcome.completed ("ok".data) ("eek".data) 1) =
        ⟨"ok".data, "eek".data, true⟩) ∧
    ((1 : Int) = 0 →
      step (⟨Phase.executing, ⟨"go".data, "mk".data, [], [], true, 0⟩⟩ : Session)
          (Input.execOutcome (ExecOutcome.completed ("ok".data) ("eek".data) 1)) =
        some (⟨Phase.done,
          execute_command_node (⟨"go".data, "mk".data, [], [], true, 0⟩ : AgentState)
            (ExecOutcome.completed ("ok".data) ("eek".data) 1)⟩, none) ∧
      session_success
        (execute_command_node (⟨"go".data, "mk".data, [], [], true, 0⟩ : AgentState)
          (ExecOutcome.completed ("ok".data) ("eek".data) 1)) = true) ∧
    ((1 : Int) ≠ 0 →
      (((∃ s' r,
          step (⟨Phase.executing, ⟨"go".data, "mk".data, [], [], true, 0⟩⟩ : Session)
              (Input.execOutcome (ExecOutcome.completed ("ok".data) ("eek".data) 1)) =
            some (s', some r) ∧ s'.phase = Phase.awaitingRetry) ∨
        (step (⟨Phase.executing, ⟨"go".data, "mk".data, [], [], true, 0⟩⟩ : Session)
              (Input.execOutcome (ExecOutcome.completed ("ok".data) ("eek".data) 1)) =
            some (⟨Phase.done,
              execute_command_node (⟨"go".data, "mk".data, [], [], true, 0⟩ : AgentState)
                (ExecOutcome.completed ("ok".data) ("eek".data) 1)⟩, none) ∧
          session_success
            (execute_command_node (⟨"go".data, "mk".data, [], [], true, 0⟩ : AgentState)
              (ExecOutcome.completed ("ok".data) ("eek".data) 1)) = false)) ↔
        ("eek".data ≠ []))) :=
  C5_exec_and_error_handling ("ok".data) ("eek".data) 1 30
    (⟨Phase.executing, ⟨"go".data, "mk".data, [], [], true, 0⟩⟩ : Session) rfl

/-!  Claim C1 — decision validation. -/

/-- Claim C1 counterexample: at the approval suspension point the decision
string `"foo"`, which is not in the valid-option set, is not rejected — the
session transitions to the terminal CANCELLED phase (graph.py's
`else:  # cancel` branch catches every unrecognized response). -/
theorem C1_counterexample :
    ("foo".data ∉ validOptions (get_approval_request_data
        approvalSession.state.generated_command approvalSession.state.user_prompt
        approvalSession.state.retry_count)) ∧
    step approvalSession (Input.decision ("foo".data)) =
      some (⟨Phase.cancelled, approvalSession.state⟩, none) := by
  decide

/-- Claim C1, amended: a decision received while the session is not
suspended is rejected with an error ("No active session found" /
"Not waiting for approval") and the engine is not resumed, so the state is
unchanged, and terminal sessions admit no transition at all; but a decision
that does not match the valid-option set at a suspension point is not
rejected: at the approval point any string other than approve/reject is
treated as cancel (session moves to CANCELLED), and at the retry point any
string other than retry is treated as stop (session moves to DONE). -/
theorem C1_amended :
    (∀ b : Bool, handle_approval_response none b = ApprovalHandling.errorNoSession) ∧
    (∀ (s : SessionInfo) (b : Bool),
      ¬(s.waiting_for_response = true ∧
          s.interrupt_kind = some InterruptKind.approvalKind) →
      handle_approval_response (some s) b = ApprovalHandling.errorNotWaiting) ∧
    (∀ (sess : Session) (d : List Char), sess.phase = Phase.awaitingApproval →
      d ≠ "approve".data → d ≠ "reject".data →
      step sess (Input.decision d) = some (⟨Phase.cancelled, sess.state⟩, none)) ∧
    (∀ (sess : Session) (d : List Char), sess.phase = Phase.awaitingRetry →
      d ≠ "retry".data →
      step sess (Input.decision d) = some (⟨Phase.done, sess.state⟩, none)) ∧
    (∀ (sess : Session) (i : Input),
      sess.phase = Phase.done ∨ sess.phase = Phase.cancelled →
      step sess i = none) := by
  refine ⟨fun b => rfl, ?_, ?_, ?_, ?_⟩
  · intro s b h
    simp only [handle_approval_response]
    rw [if_neg h]
  · intro sess d hph h1 h2
    obtain ⟨ph, st⟩ := sess
    simp only at hph
    subst hph
    simp [step, human_approval_node, h1, h2]
  · intro sess d hph h1
    obtain ⟨ph, st⟩ := sess
    simp only at hph
    subst hph
    simp [step, check_result_resume, h1]
  · intro sess i hph
    obtain ⟨ph, st⟩ := sess
    rcases hph with h | h <;> simp only at h <;> subst h
    · exact step_done st i
    · exact step_cancelled st i

/-- Claim C1 witness: the amended theorem at concrete inputs — no active
session, a session not waiting for approval, an invalid decision at each
suspension point, and a late decision at a terminal session. -/
theorem C1_amended_witness :
    handle_approval_response none true = ApprovalHandling.errorNoSession ∧
    handle_approval_response (some ⟨false, none⟩) true =
      ApprovalHandling.errorNotWaiting ∧
    step (⟨Phase.awaitingApproval,
        ⟨"list".data, "ls".data, [], [], false, 0⟩⟩ : Session)
        (Input.decision ("oops".data)) =
      some (⟨Phase.cancelled, (⟨"list".data, "ls".data, [], [], false, 0⟩ : AgentState)⟩,
        none) ∧
    step (⟨Phase.awaitingRetry,
        ⟨"list".data, "ls".data, [], "e".data, true, 0⟩⟩ : Session)
        (Input.decision ("nah".data)) =
      some (⟨Phase.done, (⟨"list".data, "ls".data, [], "e".data, true, 0⟩ : AgentState)⟩,
        none) ∧
    step (⟨Phase.done, ⟨"list".data, "ls".data, [], [], true, 0⟩⟩ : Session)
      (Input.decision ("retry".data)) = none :=
  ⟨C1_amended.1 true,
   C1_amended.2.1 ⟨false, none⟩ true (by decide),
   C1_amended.2.2.1 _ _ rfl (by decide) (by decide),
   C1_amended.2.2.2.1 _ _ rfl (by decide),
   C1_amended.2.2.2.2 _ _ (Or.inl rfl)⟩

/-!  Claim C6 — non-emptiness of the generated command. -/

/-- Claim C6 counterexample: a reachable session enters the execution phase
with an empty `generated_command` — the TextGenerator output `"```"` cleans
to the empty string and nothing stops the user from approving it. -/
theorem C6_counterexample :
    (run (initSession ("show files".data)) c6_inputs).map
        (fun r => (r.1.phase, r.1.state.generated_command)) =
      some (Phase.executing, []) := by
  decide

/-- Claim C6, amended: on entering the execution phase via generation and
approval, `generated_command` equals the cleaned TextGenerator output — so
it is non-empty exactly when the cleaned output is non-empty; the engine
does not enforce non-emptiness. -/
theorem C6_amended (sess : Session) (t : List Char)
    (hph : sess.phase = Phase.generating) :
    ∃ st : AgentState,
      step sess (Input.genOutput t) =
        some (⟨Phase.awaitingApproval, st⟩,
          some (get_approval_request_data st.generated_command st.user_prompt
            st.retry_count)) ∧
      st.generated_command = clean_command_output t ∧
      step ⟨Phase.awaitingApproval, st⟩ (Input.decision ("approve".data)) =
        some (⟨Phase.executing, { st with execution_approved := true }⟩, none) ∧
      (clean_command_output t ≠ [] →
        ({ st with execution_approved := true }).generated_command ≠ []) := by
  obtain ⟨ph, st0⟩ := sess
  simp only at hph
  subst hph
  refine ⟨generate_command_node st0 t, rfl, rfl, ?_, ?_⟩
  · simp [step, human_approval_node]
  · intro hne
    exact hne

/-- Claim C6 witness: the amended theorem at a fresh session and a concrete
generator output. -/
theorem C6_amended_witness :
    ∃ st : AgentState,
      step (initSession ("containers".data)) (Input.genOutput ("docker ps".data)) =
        some (⟨Phase.awaitingApproval, st⟩,
          some (get_approval_request_data st.generated_command st.user_prompt
            st.retry_count)) ∧
      st.generated_command = clean_command_output ("docker ps".data) ∧
      step ⟨Phase.awaitingApproval, st⟩ (Input.decision ("approve".data)) =
        some (⟨Phase.executing, { st with execution_approved := true }⟩, none) ∧
      (clean_command_output ("docker ps".data) ≠ [] →
        ({ st with execution_approved := true }).generated_command ≠ []) :=
  C6_amended (initSession ("containers".data)) ("docker ps".data) rfl

/-!  Claim C8 — cancel at the approval point. -/

/-- Claim C8: submitting `cancel` at the AWAITING_APPROVAL suspension point
moves the session to the terminal CANCELLED phase; no session reachable
afterwards is ever in the execution phase and no further step is possible,
so the command execution step is never invoked. -/
theorem C8_cancel_terminates (sess : Session)
    (hph : sess.phase = Phase.awaitingApproval) :
    step sess (Input.decision ("cancel".data)) =
      some (⟨Phase.cancelled, sess.state⟩, none) ∧
    ∀ t : Session, ReachFrom ⟨Phase.cancelled, sess.state⟩ t →
      t.phase ≠ Phase.executing ∧ ∀ i : Input, step t i = none := by
  obtain ⟨ph, st⟩ := sess
  simp only at hph
  subst hph
  constructor
  · have h1 : ("cancel".data : List Char) ≠ "approve".data := by decide
    have h2 : ("cancel".data : List Char) ≠ "reject".data := by decide
    simp [step, human_approval_node, h1, h2]
  · intro t hre
    have ht := reachFrom_cancelled st t hre
    subst ht
    exact ⟨(fun h => nomatch h), fun i => step_cancelled st i⟩

/-- Claim C8 witness: the theorem at a concrete session suspended at the
approval point. -/
theorem C8_cancel_terminates_witness :
    step (⟨Phase.awaitingApproval,
        ⟨"remove temp".data, "rm -r /tmp/x".data, [], [], false, 0⟩⟩ : Session)
        (Input.decision ("cancel".data)) =
      some (⟨Phase.cancelled,
        (⟨"remove temp".data, "rm -r /tmp/x".data, [], [], false, 0⟩ : AgentState)⟩,
        none) ∧
    ∀ t : Session,
      ReachFrom ⟨Phase.cancelled,
        (⟨"remove temp".data, "rm -r /tmp/x".data, [], [], false, 0⟩ : AgentState)⟩ t →
      t.phase ≠ Phase.executing ∧ ∀ i : Input, step t i = none :=
  C8_cancel_terminates _ rfl

/-!  Claim C9 — session identifiers. -/

/-- Claim C9 counterexample: in the CLI front end the thread id is derived
solely from `hash(user_input)`, so two sessions started with the same prompt
receive the same identifier — the distinctness claim fails whatever hash
function the process uses; the proof exhibits two calls with prompt
`"ls"`. -/
theorem C9_counterexample :
    ¬ (∀ (pyHash : List Char → Int) (prompts : List (List Char))
        (i j : Nat) (hi : i < (cli_thread_ids pyHash prompts).length)
        (hj : j < (cli_thread_ids pyHash prompts).length),
        i ≠ j →
        (cli_thread_ids pyHash prompts).get ⟨i, hi⟩ ≠
          (cli_thread_ids pyHash prompts).get ⟨j, hj⟩) := by
  intro h
  exact h (fun _ => 0) ["ls".data, "ls".data] 0 1 (by decide) (by decide)
    (by decide) rfl

/-- Claim C9, amended: the WebSocket server's identifiers
`session_{client_id}_{uuid4()}` are distinct whenever the uuid parts are
distinct (uuid4 values have a fixed length), and checkpoint-store entries
for distinct thread ids are independent — a save under one id never changes
what is loaded under another; the CLI front end's `session_{hash(prompt)}`
ids, by contrast, collide for equal prompts. -/
theorem C9_amended :
    (∀ c₁ c₂ u₁ u₂ : List Char, u₁ ≠ u₂ → u₁.length = u₂.length →
      server_thread_id c₁ u₁ ≠ server_thread_id c₂ u₂) ∧
    (∀ (store : List (List Char × AgentState)) (k₁ k₂ : List Char)
        (v : AgentState), k₁ ≠ k₂ →
      store_load (store_save store k₁ v) k₂ = store_load store k₂) := by
  constructor
  · intro c1 c2 u1 u2 hne hlen heq
    apply hne
    simp only [server_thread_id] at heq
    exact (List.append_inj' heq hlen).2
  · intro store k1 k2 v hne
    simp [store_save, store_load, hne]

/-- Claim C9 witness: the amended theorem at concrete client ids, uuids and
checkpoint keys. -/
theorem C9_amended_witness :
    server_thread_id ("a".data) ("0".data) ≠ server_thread_id ("b".data) ("1".data) ∧
    store_load (store_save [] ("x".data) (initial_state ("p".data))) ("y".data) =
      store_load [] ("y".data) :=
  ⟨C9_amended.1 ("a".data) ("b".data) ("0".data) ("1".data) (by decide) (by decide),
   C9_amended.2 [] ("x".data) ("y".data) (initial_state ("p".data)) (by decide)⟩

/-!  Claim C10 — totality of the command runner. -/

/-- Claim C10 counterexample: a non-zero exit with empty stderr — a failure
mode — is not converted into a non-empty `command_error`: the result's error
field is empty. -/
theorem C10_counterexample :
    (execute_shell_command 30 (ExecOutcome.completed [] [] 1)).command_error = [] ∧
    (1 : Int) ≠ 0 := by
  decide

/-- Claim C10, amended: the command runner is total by construction and
returns a record with exactly the fields `command_output`, `command_error`
and `execution_approved`, with `execution_approved` always `true`; timeouts
and interpreter exceptions are converted into non-empty `command_error`
strings; a non-zero exit yields `command_error` equal to the captured
stderr, which may be empty. -/
theorem C10_amended (t : Nat) (o : ExecOutcome) :
    (execute_shell_command t o).execution_approved = true ∧
    (o = ExecOutcome.timedOut → (execute_shell_command t o).command_error ≠ []) ∧
    (∀ m, o = ExecOutcome.raised m → (execute_shell_command t o).command_error ≠ []) ∧
    (∀ out err code, o = ExecOutcome.completed out err code → code ≠ 0 →
      execute_shell_command t o = ⟨out, err, true⟩) ∧
    (∀ out err, o = ExecOutcome.completed out err 0 →
      execute_shell_command t o = ⟨out, [], true⟩) := by
  refine ⟨?_, ?_, ?_, ?_, ?_⟩
  · cases o with
    | completed out err code =>
        by_cases h : code = 0 <;> simp [execute_shell_command, h]
    | timedOut => rfl
    | raised m => rfl
  · rintro rfl
    exact timeoutMessage_ne_nil t
  · rintro m rfl
    simp only [execute_shell_command, execErrorMessage]
    exact List.append_ne_nil_of_left_ne_nil (by decide) _
  · rintro out err code rfl hc
    simp [execute_shell_command, hc]
  · rintro out err rfl
    simp [execute_shell_command]

/-- Claim C10 witness: the amended theorem at a concrete raised-exception
outcome, with the exception hypothesis discharged. -/
theorem C10_amended_witness :
    (execute_shell_command 30 (ExecOutcome.raised ("denied".data))).execution_approved =
      true ∧
    (execute_shell_command 30 (ExecOutcome.raised ("denied".data))).command_error ≠ [] :=
  ⟨(C10_amended 30 (ExecOutcome.raised ("denied".data))).1,
   (C10_amended 30 (ExecOutcome.raised ("denied".data))).2.2.1 ("denied".data) rfl⟩

end CloudAssist
